import Mathlib

/-!
Verification model of the cl_server inference job subsystem
(`src/inference/src/queue.py`, `src/inference/src/job_service.py`,
`src/inference/src/worker.py`, plus the supersede-policy variant of
`JobService.create_job` in `src/services/inference/src/job_service.py`).

The SQLite tables are modelled as Lean lists in insertion (rowid) order;
SQLAlchemy `query(...).first()` becomes `List.find?` / head of the filtered
list, and `time.time() * 1000` becomes an explicit integer argument.
-/

namespace CLServer

/-- Row of the `queue` table (`src/inference/src/models.py`, class QueueEntry). -/
structure QueueEntry where
  job_id : String
  priority : Int
  enqueued_at : Int
  dequeued_at : Option Int := none
  worker_id : Option String := none
deriving Repr, DecidableEq

/-- Row of the `jobs` table (`src/inference/src/models.py`, class Job). -/
structure Job where
  job_id : String
  task_type : String
  media_store_id : String
  status : String
  created_at : Int
  started_at : Option Int := none
  completed_at : Option Int := none
  error_message : Option String := none
  retry_count : Nat := 0
  max_retries : Nat := 3
  result : Option String := none
  created_by : Option String := none
deriving Repr, DecidableEq

/-- Row of the `media_store_sync_status` table (only the fields the modelled
code touches: `job_id` and `sync_status`). -/
structure MediaStoreSyncStatus where
  job_id : String
  sync_status : String
deriving Repr, DecidableEq

/-- `WORKER_MAX_RETRIES` default from `src/inference/src/config.py`. -/
def WORKER_MAX_RETRIES : Nat := 3

/-- Outcome of `Queue.enqueue`: returned `False` (row already present),
returned `True` (row inserted), or raised `ValueError` (priority out of
range). -/
inductive EnqueueOutcome where
  | dup
  | inserted
  | invalidPriority (msg : String)
deriving Repr, DecidableEq

/-- `Queue.enqueue` from `src/inference/src/queue.py`: duplicate check first,
then priority validation, then insertion with the current timestamp.
Returns the outcome together with the table after the call. -/
def Queue.enqueue (entries : List QueueEntry) (jobId : String) (priority : Int)
    (now : Int) : EnqueueOutcome × List QueueEntry :=
  if entries.any (fun e => e.job_id == jobId) then (.dup, entries)
  else if 0 ≤ priority ∧ priority ≤ 10 then
    (.inserted, entries ++ [{ job_id := jobId, priority := priority, enqueued_at := now }])
  else (.invalidPriority "Priority must be between 0 and 10", entries)

/-- Dispatch order used by `Queue.dequeue`'s
`order_by(priority.desc(), enqueued_at.asc())`: `a` is served before `b`. -/
def DispatchBefore (a b : QueueEntry) : Prop :=
  b.priority < a.priority ∨ (a.priority = b.priority ∧ a.enqueued_at < b.enqueued_at)

instance (a b : QueueEntry) : Decidable (DispatchBefore a b) := by
  unfold DispatchBefore; infer_instance

/-- Non-strict companion of `DispatchBefore`: `a` is served no later than
`b`. -/
def DispatchLe (a b : QueueEntry) : Prop :=
  b.priority < a.priority ∨ (a.priority = b.priority ∧ a.enqueued_at ≤ b.enqueued_at)

/-- Fold step selecting the entry served first; keeps the earlier row on a
tie, matching the stable row order of the table scan. -/
def pickMin (acc x : QueueEntry) : QueueEntry :=
  if DispatchBefore x acc then x else acc

/-- `query.order_by(priority.desc(), enqueued_at.asc()).first()` over a
candidate list. -/
def selectBest : List QueueEntry → Option QueueEntry
  | [] => none
  | e :: es => some (es.foldl pickMin e)

/-- Filter `QueueEntry.dequeued_at.is_(None)`: the entry is still unclaimed. -/
def isPending (e : QueueEntry) : Bool := e.dequeued_at.isNone

/-- `Queue.dequeue` from `src/inference/src/queue.py`: pick the unclaimed
entry first in dispatch order, stamp `dequeued_at`/`worker_id`, return its
job id.  The entry is marked, not deleted. -/
def Queue.dequeue (entries : List QueueEntry) (workerId : String) (now : Int) :
    Option String × List QueueEntry :=
  match selectBest (entries.filter isPending) with
  | none => (none, entries)
  | some e =>
      (some e.job_id,
        entries.map (fun x =>
          if x.job_id == e.job_id then
            { x with dequeued_at := some now, worker_id := some workerId }
          else x))

/-- `Queue.remove` from `src/inference/src/queue.py`: delete the (unique)
entry for the job, reporting whether one existed. -/
def Queue.remove (entries : List QueueEntry) (jobId : String) :
    Bool × List QueueEntry :=
  if entries.any (fun e => e.job_id == jobId) then
    (true, entries.eraseP (fun e => e.job_id == jobId))
  else (false, entries)

/-- One fuel-indexed pass of repeated `dequeue` calls, collecting returned
job ids until the queue reports empty. -/
def dequeueAllGo (workerId : String) (now : Int) :
    Nat → List QueueEntry → List String
  | 0, _ => []
  | Nat.succ n, cur =>
      match Queue.dequeue cur workerId now with
      | (none, _) => []
      | (some j, cur') => j :: dequeueAllGo workerId now n cur'

/-- Repeatedly dequeue until empty (fuel = table size suffices: each claim
removes one entry from the unclaimed set). -/
def dequeueAll (entries : List QueueEntry) (workerId : String) (now : Int) :
    List String :=
  dequeueAllGo workerId now entries.length entries

/-- The spec scenario: enqueue A(priority=3,t=1), B(priority=7,t=2),
C(priority=7,t=3) into an empty queue. -/
def exampleQueue : List QueueEntry :=
  (Queue.enqueue (Queue.enqueue (Queue.enqueue [] "A" 3 1).2 "B" 7 2).2 "C" 7 3).2

/-- The persisted state the job service and the worker operate on: the three
tables of `src/inference/src/models.py`, each in rowid order. -/
structure DBState where
  jobs : List Job
  queue : List QueueEntry
  syncs : List MediaStoreSyncStatus
deriving Repr, DecidableEq

/-- The closed task-type set validated by `JobService.create_job`. -/
def validTasks : List String := ["image_embedding", "face_detection", "face_embedding"]

/-- Statuses the `elif status in ("completed", "error", "sync_failed")`
branch of `JobService.update_job_status` matches. -/
def terminalStatuses : List String := ["completed", "error", "sync_failed"]

/-- The duplicate-check query of `create_job`: jobs for the same
`(media_store_id, task_type)` whose status is in `["pending", "processing"]`. -/
def nonTerminalFor (jobs : List Job) (media taskType : String) : List Job :=
  jobs.filter (fun j =>
    j.media_store_id == media && j.task_type == taskType &&
      (j.status == "pending" || j.status == "processing"))

/-- The §3 data-model invariant: at most one job per
`(media reference, task type)` pair is in a non-terminal state. -/
def NonTerminalInv (s : DBState) : Prop :=
  ∀ m t, (nonTerminalFor s.jobs m t).length ≤ 1

/-- `json.dumps` on the result dict, modelled on string-valued association
lists (the exact rendering is irrelevant to the verified properties). -/
def json_dumps (d : List (String × String)) : String :=
  "\x7b" ++ String.intercalate ", " (d.map (fun kv => "\x22" ++ kv.1 ++ "\x22: " ++ kv.2)) ++ "\x7d"

/-- The field updates `JobService.update_job_status` applies to the matched
job row: the requested status is assigned unconditionally; `started_at` is
stamped on a transition to processing only when still unset, `completed_at`
on the three end statuses; the error message and serialized result are
stored only when Python finds them truthy (non-`None`, non-empty). -/
def JobService.applyStatus (status : String) (error_message : Option String)
    (result : Option (List (String × String))) (now : Int) (j : Job) : Job :=
  let j1 := { j with status := status }
  let j2 :=
    if status == "processing" && j1.started_at.isNone then
      { j1 with started_at := some now }
    else if terminalStatuses.contains status then
      { j1 with completed_at := some now }
    else j1
  let j3 := match error_message with
    | some m => if m = "" then j2 else { j2 with error_message := some m }
    | none => j2
  match result with
  | some r => if r = [] then j3 else { j3 with result := some (json_dumps r) }
  | none => j3

/-- `JobService.update_job_status` from `src/inference/src/job_service.py`:
look the job up (unknown id is a no-op returning `False`) and apply the
field updates to its row. -/
def JobService.update_job_status (s : DBState) (jobId status : String)
    (error_message : Option String) (result : Option (List (String × String)))
    (now : Int) : Bool × DBState :=
  if s.jobs.any (fun j => j.job_id == jobId) then
    (true, { s with jobs := s.jobs.map (fun j =>
      if j.job_id == jobId then
        JobService.applyStatus status error_message result now j
      else j) })
  else (false, s)

/-- `JobService.delete_job` from `src/inference/src/job_service.py`: remove
the queue entry, delete the job row; the `ondelete="CASCADE"` foreign key
removes the sync-status rows referencing it. (File cleanup is an external
effect outside the persisted state.) -/
def JobService.delete_job (s : DBState) (jobId : String) : Bool × DBState :=
  if s.jobs.any (fun j => j.job_id == jobId) then
    (true,
      { jobs := s.jobs.eraseP (fun j => j.job_id == jobId)
        queue := (Queue.remove s.queue jobId).2
        syncs := s.syncs.filter (fun y => !(y.job_id == jobId)) })
  else (false, s)

/-- The `Job(...)` record `create_job` constructs: status `pending`,
creation timestamp, and the column defaults for the remaining fields. -/
def createdJob (taskType media : String) (createdBy : Option String)
    (jobId : String) (now : Int) : Job :=
  { job_id := jobId, task_type := taskType, media_store_id := media,
    status := "pending", created_at := now, created_by := createdBy }

/-- `JobService.create_job` from `src/inference/src/job_service.py` (reject
policy).  Returns the list of committed snapshots, in order, together with
the final outcome: validation and the duplicate check raise before anything
is committed; on the main path `Queue.enqueue` issues the first commit
(persisting the flushed job together with its new entry) and the trailing
`db.commit()` issues the second (adding the sync-status row).  `jobId` and
`now` stand for `uuid.uuid4()` and `time.time() * 1000`. -/
def JobService.create_job (s : DBState) (taskType media : String)
    (priority : Int) (createdBy : Option String) (jobId : String) (now : Int) :
    List DBState × Except String DBState :=
  if ¬ validTasks.contains taskType then ([], .error "Invalid task_type")
  else if ¬ (nonTerminalFor s.jobs media taskType).isEmpty then
    ([], .error "Job already exists")
  else
    let job : Job := createdJob taskType media createdBy jobId now
    let s1 : DBState := { s with jobs := s.jobs ++ [job] }
    match Queue.enqueue s1.queue jobId priority now with
    | (.invalidPriority msg, _) => ([], .error msg)
    | (.dup, _) =>
        let s3 : DBState :=
          { s1 with syncs := s1.syncs ++ [{ job_id := jobId, sync_status := "pending" }] }
        ([s3], .ok s3)
    | (.inserted, q2) =>
        let s2 : DBState := { s1 with queue := q2 }
        let s3 : DBState :=
          { s2 with syncs := s2.syncs ++ [{ job_id := jobId, sync_status := "pending" }] }
        ([s2, s3], .ok s3)

/-- `JobService._job_to_response` from `src/inference/src/job_service.py`.
`parse` stands for `json.loads`, returning `none` on a `JSONDecodeError`;
a falsy (absent or empty) stored result is passed through as `none`. -/
structure JobResponse where
  job_id : String
  task_type : String
  media_store_id : String
  status : String
  priority : Int
  created_at : Int
  started_at : Option Int
  completed_at : Option Int
  error_message : Option String
  result : Option (List (String × String))
deriving Repr, DecidableEq

/-- Body of `JobService._job_to_response`. -/
def JobService.job_to_response (parse : String → Option (List (String × String)))
    (j : Job) (priority : Int) : JobResponse :=
  { job_id := j.job_id, task_type := j.task_type,
    media_store_id := j.media_store_id, status := j.status,
    priority := priority, created_at := j.created_at,
    started_at := j.started_at, completed_at := j.completed_at,
    error_message := j.error_message,
    result := match j.result with
      | some r => if r = "" then none else parse r
      | none => none }

/-- `JobService.get_job` from `src/inference/src/job_service.py`: look the
job up, take the display priority from its queue entry when one exists
(default 5), and convert. -/
def JobService.get_job (parse : String → Option (List (String × String)))
    (s : DBState) (jobId : String) : Option JobResponse :=
  match s.jobs.find? (fun j => j.job_id == jobId) with
  | none => none
  | some j =>
      let priority := match s.queue.find? (fun e => e.job_id == jobId) with
        | some e => e.priority
        | none => 5
      some (JobService.job_to_response parse j priority)

/-- The `except` block of `Worker.process_job`
(`src/inference/src/worker.py`): below the retry ceiling, increment
`retry_count` and call `Queue.enqueue(job_id, priority=5)` (its boolean
result is ignored); otherwise set status `error` with `str(e)`. -/
def Worker.handle_failure (s : DBState) (jobId msg : String) (now : Int) : DBState :=
  match s.jobs.find? (fun j => j.job_id == jobId) with
  | some j =>
      if j.retry_count < WORKER_MAX_RETRIES then
        let s1 : DBState := { s with jobs := s.jobs.map (fun x =>
          if x.job_id == jobId then { x with retry_count := x.retry_count + 1 } else x) }
        { s1 with queue := (Queue.enqueue s1.queue jobId 5 now).2 }
      else (JobService.update_job_status s jobId "error" (some msg) none now).2
  | none => (JobService.update_job_status s jobId "error" (some msg) none now).2

/-- `Worker.process_job`: re-fetch the job (return if gone), set status
processing, run the task, then either record completion or enter the failure
handler.  `outcome` stands for the injected media-fetch/inference call:
`.ok result` for success, `.error msg` for any raised exception. -/
def Worker.process_job (s : DBState) (jobId : String)
    (outcome : Except String (List (String × String))) (now : Int) : DBState :=
  if s.jobs.any (fun j => j.job_id == jobId) then
    let s1 := (JobService.update_job_status s jobId "processing" none none now).2
    match outcome with
    | .ok r => (JobService.update_job_status s1 jobId "completed" none (some r) now).2
    | .error msg => Worker.handle_failure s1 jobId msg now
  else s

/-- One iteration of `Worker.run`: dequeue, and process the claimed job if
any. -/
def Worker.loopIter (s : DBState) (workerId : String) (now : Int)
    (outcome : Except String (List (String × String))) : DBState :=
  match Queue.dequeue s.queue workerId now with
  | (none, _) => s
  | (some jid, q) => Worker.process_job { s with queue := q } jid outcome now

/-- A run of the worker loop: each step supplies the worker id, the clock,
and the task outcome for that iteration. -/
def Worker.runTrace (s : DBState)
    (steps : List (String × Int × Except String (List (String × String)))) : DBState :=
  steps.foldl (fun acc st => Worker.loopIter acc st.1 st.2.1 st.2.2) s

/-- The duplicate-check-and-delete step of the supersede-policy
`create_job` (`src/services/inference/src/job_service.py`, "redo embedding
feature"): a non-terminal job for the pair is deleted before the fresh job
is created. -/
def ServicesJobService.dedup (s : DBState) (media taskType : String) : DBState :=
  match (nonTerminalFor s.jobs media taskType).head? with
  | some existing => (JobService.delete_job s existing.job_id).2
  | none => s

/-- `JobService.create_job` from
`src/services/inference/src/job_service.py` (supersede policy): delete any
active duplicate, then create as in the reject-policy service.  The
superseding `delete_job` commits, so an error raised afterwards (invalid
priority) leaves the deletion in place: the error carries that committed
state. -/
def ServicesJobService.create_job (s : DBState) (taskType media : String)
    (priority : Int) (createdBy : Option String) (jobId : String) (now : Int) :
    Except (String × DBState) DBState :=
  if ¬ validTasks.contains taskType then .error ("Invalid task_type", s)
  else
    let s0 := ServicesJobService.dedup s media taskType
    let job : Job := createdJob taskType media createdBy jobId now
    let s1 : DBState := { s0 with jobs := s0.jobs ++ [job] }
    match Queue.enqueue s1.queue jobId priority now with
    | (.invalidPriority msg, _) => .error (msg, s0)
    | (.dup, _) =>
        .ok { s1 with syncs := s1.syncs ++ [{ job_id := jobId, sync_status := "pending" }] }
    | (.inserted, q2) =>
        let s2 : DBState := { s1 with queue := q2 }
        .ok { s2 with syncs := s2.syncs ++ [{ job_id := jobId, sync_status := "pending" }] }

/-! Concrete states used to exercise the model. -/

/-- A job already in the terminal status `completed`. -/
def c3Job : Job :=
  { job_id := "j3", task_type := "image_embedding", media_store_id := "m3",
    status := "completed", created_at := 0 }

/-- Store holding only the completed job `j3`. -/
def c3State : DBState := { jobs := [c3Job], queue := [], syncs := [] }

/-- A job at the retry ceiling (`retry_count = WORKER_MAX_RETRIES = 3`),
currently processing. -/
def c4Job : Job :=
  { job_id := "j4", task_type := "image_embedding", media_store_id := "m4",
    status := "processing", created_at := 0, retry_count := 3 }

/-- The claimed queue entry of `j4`. -/
def c4Entry : QueueEntry :=
  { job_id := "j4", priority := 6, enqueued_at := 1, dequeued_at := some 2,
    worker_id := some "w1" }

/-- Store for the exhausted-retries scenario. -/
def c4State : DBState := { jobs := [c4Job], queue := [c4Entry], syncs := [] }

/-- A pending job on its first attempt. -/
def c5Job : Job :=
  { job_id := "j5", task_type := "image_embedding", media_store_id := "m5",
    status := "pending", created_at := 0 }

/-- The entry of `j5` as it is right after the worker claimed it: still in
the table, `dequeued_at` stamped. -/
def c5Entry : QueueEntry :=
  { job_id := "j5", priority := 7, enqueued_at := 1, dequeued_at := some 2,
    worker_id := some "w1" }

/-- Store as seen by `process_job` after the dequeue claim of `j5`. -/
def c5State : DBState := { jobs := [c5Job], queue := [c5Entry], syncs := [] }

/-- Empty store for the create-commit scenario. -/
def c6State : DBState := { jobs := [], queue := [], syncs := [] }

/-- The commit trace of a successful `create_job` on the empty store. -/
def c6Trace : List DBState :=
  (JobService.create_job c6State "image_embedding" "m6" 5 none "j6" 100).1

/-- The first committed snapshot of that create: job and queue entry, no
sync-status row yet. -/
def c6CommitA : DBState :=
  { jobs := [createdJob "image_embedding" "m6" none "j6" 100],
    queue := [{ job_id := "j6", priority := 5, enqueued_at := 100 }],
    syncs := [] }

/-- The second committed snapshot: the sync-status row arrives. -/
def c6CommitB : DBState :=
  { c6CommitA with syncs := [{ job_id := "j6", sync_status := "pending" }] }

/-- A freshly created pending job. -/
def c7Job : Job :=
  { job_id := "j7", task_type := "image_embedding", media_store_id := "m7",
    status := "pending", created_at := 0 }

/-- The unclaimed queue entry of `j7`. -/
def c7Entry : QueueEntry := { job_id := "j7", priority := 5, enqueued_at := 1 }

/-- Store holding the pending job `j7` and its entry. -/
def c7State : DBState := { jobs := [c7Job], queue := [c7Entry], syncs := [] }

/-- An unrelated queue entry, used to watch a deletion leave other entries
alone. -/
def c7EntryX : QueueEntry := { job_id := "x7", priority := 2, enqueued_at := 4 }

/-- Store holding `j7` with its entry plus the unrelated entry. -/
def c7StateW : DBState :=
  { jobs := [c7Job], queue := [c7Entry, c7EntryX], syncs := [] }

/-- The state after the supersede-policy create replaces `j7` on `c7State`
with the fresh job `jn2`: the old job, entry and syncs are gone. -/
def c2After : DBState :=
  { jobs := [createdJob "image_embedding" "m7" none "jn2" 50],
    queue := [{ job_id := "jn2", priority := 5, enqueued_at := 50 }],
    syncs := [{ job_id := "jn2", sync_status := "pending" }] }

/-- A job that has never started processing. -/
def c8JobA : Job :=
  { job_id := "j8", task_type := "image_embedding", media_store_id := "m8",
    status := "pending", created_at := 0 }

/-- Store for the first processing transition. -/
def c8StateA : DBState := { jobs := [c8JobA], queue := [], syncs := [] }

/-- A job whose `started_at` is already stamped. -/
def c8JobB : Job :=
  { job_id := "j8", task_type := "image_embedding", media_store_id := "m8",
    status := "processing", created_at := 0, started_at := some 5 }

/-- Store for the retried processing transition. -/
def c8StateB : DBState := { jobs := [c8JobB], queue := [], syncs := [] }

/-- A completed job whose persisted result is not valid JSON. -/
def c10Job : Job :=
  { job_id := "j10", task_type := "image_embedding", media_store_id := "m10",
    status := "completed", created_at := 0, result := some "notjson" }

/-- Store holding only `j10`. -/
def c10State : DBState := { jobs := [c10Job], queue := [], syncs := [] }

/-! Helper lemmas about the row update of `update_job_status`. -/

theorem applyStatus_status (st : String) (em : Option String)
    (r : Option (List (String × String))) (now : Int) (j : Job) :
    (JobService.applyStatus st em r now j).status = st := by
  cases em <;> cases r <;> simp only [JobService.applyStatus] <;> split_ifs <;> rfl

theorem applyStatus_job_id (st : String) (em : Option String)
    (r : Option (List (String × String))) (now : Int) (j : Job) :
    (JobService.applyStatus st em r now j).job_id = j.job_id := by
  cases em <;> cases r <;> simp only [JobService.applyStatus] <;> split_ifs <;> rfl

theorem applyStatus_started_at (st : String) (em : Option String)
    (r : Option (List (String × String))) (now : Int) (j : Job) :
    (JobService.applyStatus st em r now j).started_at =
      if st == "processing" && j.started_at.isNone then some now
      else j.started_at := by
  cases em <;> cases r <;> simp only [JobService.applyStatus] <;> split_ifs <;> rfl

theorem applyStatus_completed_at (st : String) (em : Option String)
    (r : Option (List (String × String))) (now : Int) (j : Job) :
    (JobService.applyStatus st em r now j).completed_at =
      if st == "processing" && j.started_at.isNone then j.completed_at
      else if terminalStatuses.contains st then some now
      else j.completed_at := by
  cases em <;> cases r <;> simp only [JobService.applyStatus] <;> split_ifs <;> rfl

theorem applyStatus_error_message (st : String) (em : Option String)
    (r : Option (List (String × String))) (now : Int) (j : Job) :
    (JobService.applyStatus st em r now j).error_message =
      match em with
      | some m => if m = "" then j.error_message else some m
      | none => j.error_message := by
  cases em <;> cases r <;> simp only [JobService.applyStatus] <;> split_ifs <;> rfl

/-- Transport a property of the row update through `update_job_status`:
every job in the result that carries the target id satisfies `P` provided
`applyStatus` establishes `P` on every source row with that id. -/
theorem update_job_status_mem (s : DBState) (jid st : String) (em : Option String)
    (r : Option (List (String × String))) (now : Int) (P : Job → Prop)
    (h : ∀ j ∈ s.jobs, j.job_id = jid → P (JobService.applyStatus st em r now j)) :
    ∀ j' ∈ (JobService.update_job_status s jid st em r now).2.jobs,
      j'.job_id = jid → P j' := by
  intro j' hj' hid
  unfold JobService.update_job_status at hj'
  by_cases hany : s.jobs.any (fun j => j.job_id == jid) = true
  · rw [if_pos hany] at hj'
    simp only [List.mem_map] at hj'
    obtain ⟨x, hx, hfx⟩ := hj'
    by_cases hxid : (x.job_id == jid) = true
    · rw [if_pos hxid] at hfx
      exact hfx ▸ h x hx (by simpa using hxid)
    · rw [if_neg hxid] at hfx
      exact absurd (hfx ▸ hid) (by simpa using hxid)
  · rw [if_neg hany] at hj'
    rw [List.any_eq_true] at hany
    exact absurd ⟨j', hj', by simpa using hid⟩ hany

/-- `update_job_status` never touches the queue table. -/
theorem update_job_status_queue (s : DBState) (jid st : String)
    (em : Option String) (r : Option (List (String × String))) (now : Int) :
    (JobService.update_job_status s jid st em r now).2.queue = s.queue := by
  unfold JobService.update_job_status
  split <;> rfl

/-- `enqueue` reports a duplicate and leaves the table alone whenever any
entry for the job exists, claimed or not. -/
theorem enqueue_dup_of_mem (es : List QueueEntry) (jid : String) (p now : Int)
    (h : ∃ e ∈ es, e.job_id = jid) :
    Queue.enqueue es jid p now = (.dup, es) := by
  have hany : es.any (fun e => e.job_id == jid) = true := by
    rw [List.any_eq_true]
    obtain ⟨e, he, hid⟩ := h
    exact ⟨e, he, by simpa using hid⟩
  unfold Queue.enqueue
  rw [if_pos hany]

/-- C9: `enqueue` returns a duplicate signal (without raising) and leaves
the queue unchanged when an entry for the job already exists; otherwise a
priority in the closed range 0–10 leads to insertion of a new entry with
that priority and the current timestamp, while an out-of-range priority is
rejected without inserting an entry. -/
theorem enqueue_contract :
    (∀ (es : List QueueEntry) (jid : String) (p now : Int),
      (∃ e ∈ es, e.job_id = jid) → Queue.enqueue es jid p now = (.dup, es)) ∧
    (∀ (es : List QueueEntry) (jid : String) (p now : Int),
      (∀ e ∈ es, e.job_id ≠ jid) → 0 ≤ p → p ≤ 10 →
      Queue.enqueue es jid p now =
        (.inserted, es ++ [{ job_id := jid, priority := p, enqueued_at := now }])) ∧
    (∀ (es : List QueueEntry) (jid : String) (p now : Int),
      (∀ e ∈ es, e.job_id ≠ jid) → ¬ (0 ≤ p ∧ p ≤ 10) →
      Queue.enqueue es jid p now =
        (.invalidPriority "Priority must be between 0 and 10", es)) := by
  refine ⟨enqueue_dup_of_mem, ?_, ?_⟩ <;> intro es jid p now hfresh
  · intro h0 h10
    have hany : es.any (fun e => e.job_id == jid) = false := by
      rw [List.any_eq_false]
      intro e he
      simpa using hfresh e he
    unfold Queue.enqueue
    rw [hany]
    simp [h0, h10]
  · intro hbad
    have hany : es.any (fun e => e.job_id == jid) = false := by
      rw [List.any_eq_false]
      intro e he
      simpa using hfresh e he
    unfold Queue.enqueue
    rw [hany]
    simp [hbad]

/-- C9 witness: the three branches of `enqueue` at concrete inputs. -/
theorem enqueue_contract_witness :
    Queue.enqueue [{ job_id := "A", priority := 3, enqueued_at := 1 }] "A" 4 2 =
      (.dup, [{ job_id := "A", priority := 3, enqueued_at := 1 }]) ∧
    Queue.enqueue [] "B" 7 2 =
      (.inserted, [{ job_id := "B", priority := 7, enqueued_at := 2 }]) ∧
    Queue.enqueue [] "C" 11 3 =
      (.invalidPriority "Priority must be between 0 and 10", []) :=
  ⟨enqueue_contract.1 [{ job_id := "A", priority := 3, enqueued_at := 1 }] "A" 4 2
      ⟨{ job_id := "A", priority := 3, enqueued_at := 1 }, by decide, rfl⟩,
   enqueue_contract.2.1 [] "B" 7 2 (by decide) (by decide) (by decide),
   enqueue_contract.2.2 [] "C" 11 3 (by decide) (by decide)⟩

/-- C3 counterexample: a job whose status is the terminal `completed` is
moved back to `pending` by `update_job_status` — the status does not stay
terminal. -/
theorem update_status_terminal_cex :
    c3State.jobs.map Job.status = ["completed"] ∧
    (JobService.update_job_status c3State "j3" "pending" none none 10).2.jobs.map
        Job.status = ["pending"] := by
  constructor
  · rfl
  · rfl

/-- C3 (amended): `update_job_status` overwrites the status of any existing
job with the requested value unconditionally — terminal states are not
protected. -/
theorem update_status_overwrites_terminal (s : DBState) (jid st : String)
    (em : Option String) (r : Option (List (String × String))) (now : Int) :
    ∀ j' ∈ (JobService.update_job_status s jid st em r now).2.jobs,
      j'.job_id = jid → j'.status = st :=
  update_job_status_mem s jid st em r now (fun j => j.status = st)
    (fun j _ _ => applyStatus_status st em r now j)

/-- C3 witness: the amended theorem applied to the completed job `j3`. -/
theorem update_status_overwrites_terminal_witness :
    (JobService.applyStatus "pending" none none 10 c3Job).status = "pending" :=
  update_status_overwrites_terminal c3State "j3" "pending" none none 10
    (JobService.applyStatus "pending" none none 10 c3Job) (by decide) (by decide)

/-- C8: the start timestamp is set exactly once, on the first transition to
processing; a retried processing transition leaves the already-set value
unchanged. -/
theorem started_at_set_once :
    (∀ (s : DBState) (jid : String) (em : Option String)
       (r : Option (List (String × String))) (now : Int),
      (∀ j ∈ s.jobs, j.job_id = jid → j.started_at = none) →
      ∀ j' ∈ (JobService.update_job_status s jid "processing" em r now).2.jobs,
        j'.job_id = jid → j'.started_at = some now) ∧
    (∀ (s : DBState) (jid : String) (em : Option String)
       (r : Option (List (String × String))) (now t : Int),
      (∀ j ∈ s.jobs, j.job_id = jid → j.started_at = some t) →
      ∀ j' ∈ (JobService.update_job_status s jid "processing" em r now).2.jobs,
        j'.job_id = jid → j'.started_at = some t) := by
  constructor
  · intro s jid em r now h
    refine update_job_status_mem s jid "processing" em r now
      (fun j => j.started_at = some now) ?_
    intro j hj hid
    rw [applyStatus_started_at]
    simp [h j hj hid]
  · intro s jid em r now t h
    refine update_job_status_mem s jid "processing" em r now
      (fun j => j.started_at = some t) ?_
    intro j hj hid
    rw [applyStatus_started_at]
    simp [h j hj hid]

/-- C8 witness: first processing transition stamps `started_at := 7`; a
retried one keeps the earlier stamp 5. -/
theorem started_at_set_once_witness :
    (JobService.applyStatus "processing" none none 7 c8JobA).started_at = some 7 ∧
    (JobService.applyStatus "processing" none none 9 c8JobB).started_at = some 5 :=
  ⟨started_at_set_once.1 c8StateA "j8" none none 7 (by decide)
      (JobService.applyStatus "processing" none none 7 c8JobA) (by decide) (by decide),
   started_at_set_once.2 c8StateB "j8" none none 9 5 (by decide)
      (JobService.applyStatus "processing" none none 9 c8JobB) (by decide) (by decide)⟩

/-- C10: when the persisted result string of a job is not valid JSON
(`parse` yields `none`), `get_job` still succeeds and returns the job's
response with `result := none` and every other field taken from the row. -/
theorem get_job_invalid_json (parse : String → Option (List (String × String)))
    (s : DBState) (jid : String) (j : Job) (r : String)
    (hfind : s.jobs.find? (fun x => x.job_id == jid) = some j)
    (hres : j.result = some r) (hbad : parse r = none) :
    JobService.get_job parse s jid = some
      { job_id := j.job_id, task_type := j.task_type,
        media_store_id := j.media_store_id, status := j.status,
        priority := match s.queue.find? (fun e => e.job_id == jid) with
          | some e => e.priority
          | none => 5,
        created_at := j.created_at, started_at := j.started_at,
        completed_at := j.completed_at, error_message := j.error_message,
        result := none } := by
  unfold JobService.get_job JobService.job_to_response
  rw [hfind]
  by_cases hr0 : r = "" <;> simp [hres, hr0, hbad]

/-- C10 witness: `j10` holds the unparsable result string; `get_job` returns
its response with the result cleared. -/
theorem get_job_invalid_json_witness :
    JobService.get_job (fun _ => none) c10State "j10" = some
      { job_id := "j10", task_type := "image_embedding",
        media_store_id := "m10", status := "completed", priority := 5,
        created_at := 0, started_at := none, completed_at := none,
        error_message := none, result := none } :=
  get_job_invalid_json (fun _ => none) c10State "j10" c10Job "notjson"
    (by decide) (by decide) rfl

/-- After erasing the (unique) element with key `k` from a list whose keys
are distinct, no element with key `k` remains. -/
theorem key_not_mem_eraseP {α : Type} (key : α → String) (l : List α) (k : String)
    (hnd : (l.map key).Nodup) :
    ∀ x ∈ l.eraseP (fun y => key y == k), key x ≠ k := by
  induction l with
  | nil => simp
  | cons a tl ih =>
    rw [List.map_cons, List.nodup_cons] at hnd
    by_cases ha : key a = k
    · rw [List.eraseP_cons_of_pos (by simpa using ha)]
      intro x hx hk
      exact hnd.1 (ha ▸ hk ▸ List.mem_map_of_mem key hx)
    · rw [List.eraseP_cons_of_neg (by simpa using ha)]
      intro x hx
      rcases List.mem_cons.mp hx with h | h
      · exact h ▸ ha
      · exact ih hnd.2 x h

/-- C5 evaluation at the failing input: the worker's recoverable-failure
path increments the retry count, but its `enqueue` call is a no-op (the
claimed entry is still in the table, so it reports duplicate), no fresh
entry at any priority is created, and the status remains `processing`
rather than returning to `pending`. -/
theorem worker_retry_path_no_reenqueue :
    (Worker.process_job c5State "j5" (.error "boom") 50).queue = [c5Entry] ∧
    (Worker.process_job c5State "j5" (.error "boom") 50).jobs.map Job.retry_count
      = [1] ∧
    (Worker.process_job c5State "j5" (.error "boom") 50).jobs.map Job.status
      = ["processing"] := by
  refine ⟨by decide, by decide, by decide⟩

/-- C7 counterexample: `j7` is claimed by a worker and then transitions to
the terminal `completed`, yet its queue entry is still in the table. -/
theorem queue_entry_survives_terminal_cex :
    ((JobService.update_job_status
        { c7State with queue := (Queue.dequeue c7State.queue "w1" 2).2 }
        "j7" "completed" none none 3).2.jobs.map Job.status = ["completed"]) ∧
    ((JobService.update_job_status
        { c7State with queue := (Queue.dequeue c7State.queue "w1" 2).2 }
        "j7" "completed" none none 3).2.queue.map QueueEntry.job_id = ["j7"]) := by
  refine ⟨by decide, by decide⟩

/-- C7 (amended): a queue entry is removed only through `Queue.remove`
(invoked by job deletion): status updates — terminal ones included — never
touch the queue; deleting an existing job leaves no entry for it; and while
any entry for a job exists, `enqueue` (the failure-retry path included)
creates no fresh entry and reports a duplicate. -/
theorem queue_entry_lifecycle :
    (∀ (s : DBState) (jid st : String) (em : Option String)
       (r : Option (List (String × String))) (now : Int),
      (JobService.update_job_status s jid st em r now).2.queue = s.queue) ∧
    (∀ (s : DBState) (jid : String),
      (∃ j ∈ s.jobs, j.job_id = jid) →
      (s.queue.map QueueEntry.job_id).Nodup →
      ∀ e ∈ (JobService.delete_job s jid).2.queue, e.job_id ≠ jid) ∧
    (∀ (es : List QueueEntry) (jid : String) (p now : Int),
      (∃ e ∈ es, e.job_id = jid) → Queue.enqueue es jid p now = (.dup, es)) := by
  refine ⟨update_job_status_queue, ?_, enqueue_dup_of_mem⟩
  intro s jid hex hnd e he
  have hany : s.jobs.any (fun j => j.job_id == jid) = true := by
    rw [List.any_eq_true]
    obtain ⟨j, hj, hid⟩ := hex
    exact ⟨j, hj, by simpa using hid⟩
  unfold JobService.delete_job at he
  rw [if_pos hany] at he
  unfold Queue.remove at he
  by_cases hq : s.queue.any (fun x => x.job_id == jid) = true
  · rw [if_pos hq] at he
    exact key_not_mem_eraseP QueueEntry.job_id s.queue jid hnd e he
  · rw [if_neg hq] at he
    have hq' : s.queue.any (fun x => x.job_id == jid) = false := by
      simpa using hq
    rw [List.any_eq_false] at hq'
    simpa using hq' e he

/-- C7 witness: terminal update leaves the entry table of `c7State` alone;
deleting `j7` from the two-entry store leaves only the unrelated entry;
`enqueue` on the claimed entry of `j7` reports duplicate. -/
theorem queue_entry_lifecycle_witness :
    (JobService.update_job_status c7State "j7" "completed" none none 3).2.queue
      = c7State.queue ∧
    c7EntryX.job_id ≠ "j7" ∧
    Queue.enqueue [c5Entry] "j5" 5 9 = (.dup, [c5Entry]) :=
  ⟨queue_entry_lifecycle.1 c7State "j7" "completed" none none 3,
   queue_entry_lifecycle.2.1 c7StateW "j7" ⟨c7Job, by decide, rfl⟩ (by decide)
     c7EntryX (by decide),
   queue_entry_lifecycle.2.2 [c5Entry] "j5" 5 9 ⟨c5Entry, by decide, rfl⟩⟩

/-- `enqueue` answered duplicate: an entry for the job was present and the
table is unchanged. -/
theorem enqueue_dup_elim {es : List QueueEntry} {jid : String} {p now : Int}
    {q : List QueueEntry} (h : Queue.enqueue es jid p now = (.dup, q)) :
    (∃ e ∈ es, e.job_id = jid) ∧ q = es := by
  unfold Queue.enqueue at h
  split_ifs at h with h1 h2
  · injection h with ho hq
    subst hq
    rw [List.any_eq_true] at h1
    obtain ⟨e, he, hid⟩ := h1
    exact ⟨⟨e, he, by simpa using hid⟩, rfl⟩
  · exact absurd (congrArg Prod.fst h) (by simp)
  · exact absurd (congrArg Prod.fst h) (by simp)

/-- `enqueue` answered inserted: the new entry is appended to the table. -/
theorem enqueue_inserted_elim {es : List QueueEntry} {jid : String} {p now : Int}
    {q : List QueueEntry} (h : Queue.enqueue es jid p now = (.inserted, q)) :
    q = es ++ [{ job_id := jid, priority := p, enqueued_at := now }] := by
  unfold Queue.enqueue at h
  split_ifs at h with h1 h2
  · exact absurd (congrArg Prod.fst h) (by simp)
  · injection h with ho hq
    exact hq.symm
  · exact absurd (congrArg Prod.fst h) (by simp)

/-- Exhaustive branch description of the reject-policy `create_job`:
either it raises with nothing committed, or (an entry for the id already
being present) it commits once, or it commits the job-with-entry snapshot
and then the sync snapshot. -/
theorem create_job_spec (s : DBState) (t m : String) (p : Int)
    (cb : Option String) (jid : String) (now : Int) :
    (∃ msg, JobService.create_job s t m p cb jid now = ([], .error msg)) ∨
    ((∃ e ∈ s.queue, e.job_id = jid) ∧ nonTerminalFor s.jobs m t = [] ∧
      JobService.create_job s t m p cb jid now =
        ([{ jobs := s.jobs ++ [createdJob t m cb jid now], queue := s.queue,
            syncs := s.syncs ++ [{ job_id := jid, sync_status := "pending" }] }],
         .ok { jobs := s.jobs ++ [createdJob t m cb jid now], queue := s.queue,
               syncs := s.syncs ++ [{ job_id := jid, sync_status := "pending" }] })) ∨
    (nonTerminalFor s.jobs m t = [] ∧
      JobService.create_job s t m p cb jid now =
      ([{ jobs := s.jobs ++ [createdJob t m cb jid now],
          queue := s.queue ++ [{ job_id := jid, priority := p, enqueued_at := now }],
          syncs := s.syncs },
        { jobs := s.jobs ++ [createdJob t m cb jid now],
          queue := s.queue ++ [{ job_id := jid, priority := p, enqueued_at := now }],
          syncs := s.syncs ++ [{ job_id := jid, sync_status := "pending" }] }],
       .ok { jobs := s.jobs ++ [createdJob t m cb jid now],
             queue := s.queue ++ [{ job_id := jid, priority := p, enqueued_at := now }],
             syncs := s.syncs ++ [{ job_id := jid, sync_status := "pending" }] })) := by
  by_cases hv : validTasks.contains t = true
  · by_cases hd : (nonTerminalFor s.jobs m t).isEmpty = true
    · have hni : nonTerminalFor s.jobs m t = [] := by
        simpa using hd
      rcases henq : Queue.enqueue s.queue jid p now with ⟨o, q⟩
      cases o with
      | dup =>
          obtain ⟨hex, rfl⟩ := enqueue_dup_elim henq
          refine .inr (.inl ⟨hex, hni, ?_⟩)
          unfold JobService.create_job
          rw [if_neg (not_not_intro hv), if_neg (not_not_intro hd)]
          simp only [henq]
      | inserted =>
          obtain rfl := enqueue_inserted_elim henq
          refine .inr (.inr ⟨hni, ?_⟩)
          unfold JobService.create_job
          rw [if_neg (not_not_intro hv), if_neg (not_not_intro hd)]
          simp only [henq]
      | invalidPriority msg =>
          refine .inl ⟨msg, ?_⟩
          unfold JobService.create_job
          rw [if_neg (not_not_intro hv), if_neg (not_not_intro hd)]
          simp only [henq]
    · refine .inl ⟨"Job already exists", ?_⟩
      unfold JobService.create_job
      rw [if_neg (not_not_intro hv), if_pos hd]
  · refine .inl ⟨"Invalid task_type", ?_⟩
    unfold JobService.create_job
    rw [if_pos hv]

/-- C6 counterexample: a successful `create_job` issues two commits, not
one atomic transaction — the first committed snapshot holds the job and its
queue entry but no sync-status row. -/
theorem create_job_two_commits_cex :
    c6Trace.map (fun c => (c.jobs.length, c.queue.length, c.syncs.length)) =
      [(1, 1, 0), (1, 1, 1)] := by decide

/-- C6 (amended): `create_job` commits the job together with its queue
entry first and the sync-status row in a second transaction; every
committed snapshot contains the new job and an entry for it (a persisted
job without a queue entry is impossible), a failed create commits nothing,
and the final committed state of a successful create is the returned one
and holds the sync-status row. -/
theorem create_job_commit_integrity :
    (∀ (s : DBState) (t m : String) (p : Int) (cb : Option String)
       (jid : String) (now : Int) (c : DBState),
      c ∈ (JobService.create_job s t m p cb jid now).1 →
      (∃ j ∈ c.jobs, j.job_id = jid) ∧ (∃ e ∈ c.queue, e.job_id = jid)) ∧
    (∀ (s : DBState) (t m : String) (p : Int) (cb : Option String)
       (jid : String) (now : Int) (msg : String) (tr : List DBState),
      JobService.create_job s t m p cb jid now = (tr, .error msg) → tr = []) ∧
    (∀ (s : DBState) (t m : String) (p : Int) (cb : Option String)
       (jid : String) (now : Int) (tr : List DBState) (s' : DBState),
      JobService.create_job s t m p cb jid now = (tr, .ok s') →
      tr.getLast? = some s' ∧ ∃ y ∈ s'.syncs, y.job_id = jid) := by
  refine ⟨?_, ?_, ?_⟩
  · intro s t m p cb jid now c hc
    rcases create_job_spec s t m p cb jid now with ⟨msg, heq⟩ | ⟨hex, hni, heq⟩ | ⟨hni, heq⟩
    · rw [heq] at hc
      simp at hc
    · rw [heq] at hc
      simp only [List.mem_singleton] at hc
      subst hc
      exact ⟨⟨createdJob t m cb jid now, by simp, rfl⟩, hex⟩
    · rw [heq] at hc
      simp only [List.mem_cons, List.mem_singleton, List.not_mem_nil, or_false] at hc
      rcases hc with rfl | rfl
      · exact ⟨⟨createdJob t m cb jid now, by simp, rfl⟩,
          ⟨{ job_id := jid, priority := p, enqueued_at := now }, by simp, rfl⟩⟩
      · exact ⟨⟨createdJob t m cb jid now, by simp, rfl⟩,
          ⟨{ job_id := jid, priority := p, enqueued_at := now }, by simp, rfl⟩⟩
  · intro s t m p cb jid now msg tr h
    rcases create_job_spec s t m p cb jid now with ⟨msg', heq⟩ | ⟨_, _, heq⟩ | ⟨_, heq⟩ <;>
      rw [heq] at h
    · injection h with h1 h2
      exact h1.symm
    · exact absurd (congrArg Prod.snd h) (by simp)
    · exact absurd (congrArg Prod.snd h) (by simp)
  · intro s t m p cb jid now tr s' h
    rcases create_job_spec s t m p cb jid now with ⟨msg', heq⟩ | ⟨_, _, heq⟩ | ⟨_, heq⟩ <;>
      rw [heq] at h
    · exact absurd (congrArg Prod.snd h) (by simp)
    · injection h with h1 h2
      injection h2 with h3
      subst h3
      subst h1
      exact ⟨by simp, ⟨{ job_id := jid, sync_status := "pending" }, by simp, rfl⟩⟩
    · injection h with h1 h2
      injection h2 with h3
      subst h3
      subst h1
      exact ⟨by simp, ⟨{ job_id := jid, sync_status := "pending" }, by simp, rfl⟩⟩

/-- C6 witness: the three parts applied at concrete creates on the empty
store. -/
theorem create_job_commit_integrity_witness :
    ((∃ j ∈ c6CommitA.jobs, j.job_id = "j6") ∧
      (∃ e ∈ c6CommitA.queue, e.job_id = "j6")) ∧
    ([] : List DBState) = [] ∧
    (c6Trace.getLast? = some c6CommitB ∧
      ∃ y ∈ c6CommitB.syncs, y.job_id = "j6") :=
  ⟨create_job_commit_integrity.1 c6State "image_embedding" "m6" 5 none "j6" 100
      c6CommitA (by decide),
   create_job_commit_integrity.2.1 c6State "bad_task" "m6" 5 none "j6" 100
      "Invalid task_type" [] rfl,
   create_job_commit_integrity.2.2 c6State "image_embedding" "m6" 5 none "j6" 100
      c6Trace c6CommitB rfl⟩

/-! Helper lemmas for the worker-trace invariant. -/

theorem foldl_pickMin_mem (es : List QueueEntry) (e : QueueEntry) :
    es.foldl pickMin e ∈ e :: es := by
  induction es generalizing e with
  | nil => simp [List.foldl]
  | cons x xs ih =>
    rw [List.foldl_cons]
    have hp : pickMin e x = x ∨ pickMin e x = e := by
      unfold pickMin
      split <;> simp
    rcases List.mem_cons.mp (ih (pickMin e x)) with h1 | h1
    · rcases hp with h2 | h2 <;> rw [h1, h2] <;> simp
    · simp [h1]

theorem selectBest_mem {l : List QueueEntry} {e : QueueEntry}
    (h : selectBest l = some e) : e ∈ l := by
  cases l with
  | nil => simp [selectBest] at h
  | cons a tl =>
    simp only [selectBest, Option.some.injEq] at h
    exact h ▸ foldl_pickMin_mem tl a

/-- Mapping a row transform that fixes every entry of a given job id and
never changes ids commutes with filtering for that id. -/
theorem filter_key_map (f : QueueEntry → QueueEntry) (jid : String)
    (hid : ∀ x, (f x).job_id = x.job_id)
    (hfix : ∀ x, x.job_id = jid → f x = x) (es : List QueueEntry) :
    (es.map f).filter (fun e => e.job_id == jid) =
      es.filter (fun e => e.job_id == jid) := by
  induction es with
  | nil => rfl
  | cons a tl ih =>
    rw [List.map_cons, List.filter_cons, List.filter_cons]
    by_cases ha : a.job_id = jid
    · rw [hfix a ha]
      simp only [ha, beq_self_eq_true, if_true]
      rw [ih]
    · have h1 : ((f a).job_id == jid) = false := by simp [hid a, ha]
      have h2 : (a.job_id == jid) = false := by simp [ha]
      rw [h1, h2]
      simpa using ih

/-- The claim-marking map of `dequeue` preserves the filter for every other
job id and keeps entries of that id claimed. -/
theorem mark_map_spec (es : List QueueEntry) (jid jid' w : String) (now : Int)
    (hne : jid' ≠ jid)
    (hcl : ∀ e ∈ es, e.job_id = jid → e.dequeued_at ≠ none) :
    ((es.map (fun x => if x.job_id == jid' then
        { x with dequeued_at := some now, worker_id := some w } else x)).filter
          (fun e => e.job_id == jid) = es.filter (fun e => e.job_id == jid)) ∧
    (∀ e ∈ es.map (fun x => if x.job_id == jid' then
        { x with dequeued_at := some now, worker_id := some w } else x),
      e.job_id = jid → e.dequeued_at ≠ none) := by
  constructor
  · refine filter_key_map _ jid ?_ ?_ es
    · intro x
      split <;> rfl
    · intro x hx
      rw [if_neg]
      simp [hx, hne.symm]
  · intro e he hid
    rw [List.mem_map] at he
    obtain ⟨x, hx, hfx⟩ := he
    by_cases hx' : (x.job_id == jid') = true
    · rw [if_pos hx'] at hfx
      rw [← hfx]
      simp
    · rw [if_neg hx'] at hfx
      exact hfx ▸ hcl x hx (hfx.symm ▸ hid)

/-- `enqueue` of a different job id preserves the filter for `jid` and the
claimed-ness of its entries. -/
theorem enqueue_other_spec (es : List QueueEntry) (jid jid' : String)
    (p now : Int) (hne : jid' ≠ jid)
    (hcl : ∀ e ∈ es, e.job_id = jid → e.dequeued_at ≠ none) :
    ((Queue.enqueue es jid' p now).2.filter (fun e => e.job_id == jid) =
      es.filter (fun e => e.job_id == jid)) ∧
    (∀ e ∈ (Queue.enqueue es jid' p now).2, e.job_id = jid →
      e.dequeued_at ≠ none) := by
  unfold Queue.enqueue
  split_ifs
  · exact ⟨rfl, hcl⟩
  · constructor
    · rw [List.filter_append]
      have : (({ job_id := jid', priority := p, enqueued_at := now } :
          QueueEntry).job_id == jid) = false := by simp [hne]
      simp [this]
    · intro e he hid
      rcases List.mem_append.mp he with h1 | h1
      · exact hcl e h1 hid
      · rw [List.mem_singleton] at h1
        subst h1
        exact absurd hid hne
  · exact ⟨rfl, hcl⟩

/-- `handle_failure` for a different job id preserves the filter for `jid`
and the claimed-ness of its entries. -/
theorem handle_failure_other_spec (s : DBState) (jid jid' msg : String)
    (now : Int) (hne : jid' ≠ jid)
    (hcl : ∀ e ∈ s.queue, e.job_id = jid → e.dequeued_at ≠ none) :
    ((Worker.handle_failure s jid' msg now).queue.filter
        (fun e => e.job_id == jid) = s.queue.filter (fun e => e.job_id == jid)) ∧
    (∀ e ∈ (Worker.handle_failure s jid' msg now).queue, e.job_id = jid →
      e.dequeued_at ≠ none) := by
  rcases hf : s.jobs.find? (fun j => j.job_id == jid') with _ | j <;>
    simp only [Worker.handle_failure, hf]
  · rw [update_job_status_queue]
    exact ⟨rfl, hcl⟩
  · split
    · exact enqueue_other_spec s.queue jid jid' 5 now hne hcl
    · rw [update_job_status_queue]
      exact ⟨rfl, hcl⟩

/-- `process_job` for a different job id preserves the filter for `jid` and
the claimed-ness of its entries. -/
theorem process_job_other_spec (s : DBState) (jid jid' : String)
    (outcome : Except String (List (String × String))) (now : Int)
    (hne : jid' ≠ jid)
    (hcl : ∀ e ∈ s.queue, e.job_id = jid → e.dequeued_at ≠ none) :
    ((Worker.process_job s jid' outcome now).queue.filter
        (fun e => e.job_id == jid) = s.queue.filter (fun e => e.job_id == jid)) ∧
    (∀ e ∈ (Worker.process_job s jid' outcome now).queue, e.job_id = jid →
      e.dequeued_at ≠ none) := by
  cases outcome with
  | ok r =>
      simp only [Worker.process_job]
      split
      · rw [update_job_status_queue, update_job_status_queue]
        exact ⟨rfl, hcl⟩
      · exact ⟨rfl, hcl⟩
  | error msg =>
      simp only [Worker.process_job]
      split
      · have hq : (JobService.update_job_status s jid' "processing" none none
            now).2.queue = s.queue := update_job_status_queue ..
        have h := handle_failure_other_spec
          (JobService.update_job_status s jid' "processing" none none now).2
          jid jid' msg now hne (by rw [hq]; exact hcl)
        rw [hq] at h
        exact h
      · exact ⟨rfl, hcl⟩

/-- One worker-loop iteration preserves the filter for a job id all of
whose entries are already claimed, and keeps them claimed. -/
theorem loopIter_other_spec (s : DBState) (jid w : String) (now : Int)
    (outcome : Except String (List (String × String)))
    (hcl : ∀ e ∈ s.queue, e.job_id = jid → e.dequeued_at ≠ none) :
    ((Worker.loopIter s w now outcome).queue.filter
        (fun e => e.job_id == jid) = s.queue.filter (fun e => e.job_id == jid)) ∧
    (∀ e ∈ (Worker.loopIter s w now outcome).queue, e.job_id = jid →
      e.dequeued_at ≠ none) := by
  rcases hsel : selectBest (s.queue.filter isPending) with _ | e <;>
    simp only [Worker.loopIter, Queue.dequeue, hsel]
  · exact ⟨by simp, hcl⟩
  · have he := selectBest_mem hsel
    have hpend : isPending e = true := (List.mem_filter.mp he).2
    have hes : e ∈ s.queue := (List.mem_filter.mp he).1
    have hnone : e.dequeued_at = none := by
      simpa [isPending, Option.isNone_iff_eq_none] using hpend
    have hne : e.job_id ≠ jid := fun hj => hcl e hes hj hnone
    have hmark := mark_map_spec s.queue jid e.job_id w now hne hcl
    have := process_job_other_spec
      { s with queue := s.queue.map (fun x => if x.job_id == e.job_id then
          { x with dequeued_at := some now, worker_id := some w } else x) }
      jid e.job_id outcome now hne hmark.2
    exact ⟨this.1.trans hmark.1, this.2⟩

/-- C4 counterexample: job `j4` has exhausted its retries
(`retry_count = WORKER_MAX_RETRIES = 3`); its next failure carries the empty
message, so the job reaches the terminal `error` with a **null** error
message. -/
theorem worker_error_message_null_cex :
    (Worker.handle_failure c4State "j4" "" 99).jobs.map Job.status = ["error"] ∧
    (Worker.handle_failure c4State "j4" "" 99).jobs.map Job.error_message
      = [none] := by
  refine ⟨by decide, by decide⟩

/-- C4 (amended): when a failure is handled at or above the retry ceiling
the job becomes terminal `error` with the completion stamp, and the error
message is recorded whenever the captured message is non-empty; afterwards
(as for any job all of whose queue entries are claimed) no worker-loop run
ever creates a queue entry for it, so it is never re-enqueued or dequeued
again. -/
theorem worker_retry_exhaustion :
    (∀ (s : DBState) (jid msg : String) (now : Int) (j : Job),
      s.jobs.find? (fun x => x.job_id == jid) = some j →
      WORKER_MAX_RETRIES ≤ j.retry_count →
      (Worker.handle_failure s jid msg now).queue = s.queue ∧
      ∀ j' ∈ (Worker.handle_failure s jid msg now).jobs, j'.job_id = jid →
        j'.status = "error" ∧ j'.completed_at = some now ∧
        (msg ≠ "" → j'.error_message = some msg)) ∧
    (∀ (s : DBState) (jid : String)
       (steps : List (String × Int × Except String (List (String × String)))),
      (∀ e ∈ s.queue, e.job_id = jid → e.dequeued_at ≠ none) →
      (Worker.runTrace s steps).queue.filter (fun e => e.job_id == jid) =
        s.queue.filter (fun e => e.job_id == jid) ∧
      (∀ e ∈ (Worker.runTrace s steps).queue, e.job_id = jid →
        e.dequeued_at ≠ none)) := by
  constructor
  · intro s jid msg now j hfind hge
    have hnlt : ¬ j.retry_count < WORKER_MAX_RETRIES := Nat.not_lt.mpr hge
    simp only [Worker.handle_failure, hfind]
    rw [if_neg hnlt]
    refine ⟨update_job_status_queue .., ?_⟩
    refine update_job_status_mem s jid "error" (some msg) none now
      (fun j' => j'.status = "error" ∧ j'.completed_at = some now ∧
        (msg ≠ "" → j'.error_message = some msg)) ?_
    intro x hx hxid
    refine ⟨applyStatus_status .., ?_, ?_⟩
    · rw [applyStatus_completed_at]
      have h1 : (("error" : String) == "processing") = false := by decide
      have h2 : ("error" : String) ∈ terminalStatuses := by decide
      simp [h1, h2]
    · intro hmsg
      rw [applyStatus_error_message]
      simp [hmsg]
  · intro s jid steps hcl
    induction steps generalizing s with
    | nil => exact ⟨rfl, hcl⟩
    | cons st tl ih =>
      have h1 := loopIter_other_spec s jid st.1 st.2.1 st.2.2 hcl
      have h2 := ih (Worker.loopIter s st.1 st.2.1 st.2.2) h1.2
      exact ⟨h2.1.trans h1.1, h2.2⟩

/-- C4 witness: the exhausted failure of `j4` with message `"x"` and a
subsequent worker-loop run. -/
theorem worker_retry_exhaustion_witness :
    (Worker.handle_failure c4State "j4" "x" 99).queue = c4State.queue ∧
    (JobService.applyStatus "error" (some "x") none 99 c4Job).status = "error" ∧
    (JobService.applyStatus "error" (some "x") none 99 c4Job).error_message
      = some "x" ∧
    (Worker.runTrace c4State [("w2", 100, .error "y")]).queue.filter
        (fun e => e.job_id == "j4") =
      c4State.queue.filter (fun e => e.job_id == "j4") :=
  ⟨(worker_retry_exhaustion.1 c4State "j4" "x" 99 c4Job (by decide) (by decide)).1,
   ((worker_retry_exhaustion.1 c4State "j4" "x" 99 c4Job (by decide) (by decide)).2
      (JobService.applyStatus "error" (some "x") none 99 c4Job)
      (by decide) (by decide)).1,
   ((worker_retry_exhaustion.1 c4State "j4" "x" 99 c4Job (by decide) (by decide)).2
      (JobService.applyStatus "error" (some "x") none 99 c4Job)
      (by decide) (by decide)).2.2 (by decide),
   (worker_retry_exhaustion.2 c4State "j4" [("w2", 100, .error "y")]
      (by decide)).1⟩

/-! Helper lemmas for the duplicate-job policies. -/

theorem mem_of_head?_eq {α : Type} {l : List α} {a : α}
    (h : l.head? = some a) : a ∈ l := by
  cases l with
  | nil => simp at h
  | cons b tl =>
    simp only [List.head?_cons, Option.some.injEq] at h
    exact h ▸ List.mem_cons_self b tl

theorem head?_length_le_one {α : Type} {l : List α} {a : α}
    (h : l.head? = some a) (hl : l.length ≤ 1) : l = [a] := by
  cases l with
  | nil => simp at h
  | cons b tl =>
    simp only [List.head?_cons, Option.some.injEq] at h
    subst h
    cases tl with
    | nil => rfl
    | cons c tl2 => simp at hl

theorem nonTerminalFor_sublist {l1 l2 : List Job} (h : l1.Sublist l2)
    (m t : String) : (nonTerminalFor l1 m t).Sublist (nonTerminalFor l2 m t) :=
  h.filter _

theorem delete_job_jobs_sublist (s : DBState) (jid : String) :
    ((JobService.delete_job s jid).2.jobs).Sublist s.jobs := by
  unfold JobService.delete_job
  split
  · exact List.eraseP_sublist _
  · exact List.Sublist.refl _

theorem dedup_jobs_sublist (s : DBState) (m t : String) :
    ((ServicesJobService.dedup s m t).jobs).Sublist s.jobs := by
  unfold ServicesJobService.dedup
  split
  · exact delete_job_jobs_sublist ..
  · exact List.Sublist.refl _

/-- When a non-terminal duplicate heads the query, `dedup` erases exactly
the jobs carrying its id. -/
theorem dedup_jobs_eq (s : DBState) (m t : String) {j0 : Job}
    (hh : (nonTerminalFor s.jobs m t).head? = some j0) :
    (ServicesJobService.dedup s m t).jobs
      = s.jobs.eraseP (fun j => j.job_id == j0.job_id) := by
  have hj0 : j0 ∈ s.jobs := (List.mem_filter.mp (mem_of_head?_eq hh)).1
  have hany : (s.jobs.any fun j => j.job_id == j0.job_id) = true :=
    List.any_eq_true.mpr ⟨j0, hj0, by simp⟩
  simp only [ServicesJobService.dedup, hh, JobService.delete_job, hany,
    if_true]

/-- After `dedup`, no non-terminal job for the pair remains. -/
theorem dedup_clears (s : DBState) (m t : String) (hinv : NonTerminalInv s)
    (hnd : (s.jobs.map Job.job_id).Nodup) {j0 : Job}
    (hh : (nonTerminalFor s.jobs m t).head? = some j0) :
    nonTerminalFor (ServicesJobService.dedup s m t).jobs m t = [] := by
  have hone : nonTerminalFor s.jobs m t = [j0] :=
    head?_length_le_one hh (hinv m t)
  rw [dedup_jobs_eq s m t hh]
  rw [List.eq_nil_iff_forall_not_mem]
  intro x hx
  have hx1 : x ∈ s.jobs.eraseP (fun j => j.job_id == j0.job_id) :=
    (List.mem_filter.mp hx).1
  have hxkey := key_not_mem_eraseP Job.job_id s.jobs j0.job_id hnd x hx1
  have hx2 : x ∈ nonTerminalFor s.jobs m t :=
    List.mem_filter.mpr ⟨List.mem_of_mem_eraseP hx1, (List.mem_filter.mp hx).2⟩
  rw [hone, List.mem_singleton] at hx2
  exact hxkey (hx2 ▸ rfl)

theorem nonTerminalFor_append_singleton (jobs : List Job) (j : Job)
    (m t : String) :
    nonTerminalFor (jobs ++ [j]) m t
      = nonTerminalFor jobs m t ++ nonTerminalFor [j] m t := by
  unfold nonTerminalFor
  rw [List.filter_append]

/-- Appending the freshly created pending job keeps the per-pair bound when
the pair it belongs to currently has no non-terminal job. -/
theorem nonTerminalInv_insert (jobs : List Job) (t m : String)
    (cb : Option String) (jid : String) (now : Int)
    (hlen : ∀ m' t', (nonTerminalFor jobs m' t').length ≤ 1)
    (hcleared : nonTerminalFor jobs m t = []) :
    ∀ m' t',
      (nonTerminalFor (jobs ++ [createdJob t m cb jid now]) m' t').length ≤ 1 := by
  intro m' t'
  rw [nonTerminalFor_append_singleton, List.length_append]
  by_cases hm : m = m' ∧ t = t'
  · obtain ⟨rfl, rfl⟩ := hm
    rw [hcleared]
    simp only [List.length_nil, Nat.zero_add]
    exact List.length_filter_le _ _
  · have h2 : nonTerminalFor [createdJob t m cb jid now] m' t' = [] := by
      rcases not_and_or.mp hm with h | h <;>
        simp [nonTerminalFor, createdJob, List.filter_singleton, h]
    rw [h2]
    simpa using hlen m' t'

/-- Exhaustive branch description of the supersede-policy `create_job`. -/
theorem services_create_job_spec (s : DBState) (t m : String) (p : Int)
    (cb : Option String) (jid : String) (now : Int) :
    (ServicesJobService.create_job s t m p cb jid now
        = .error ("Invalid task_type", s)) ∨
    (∃ msg, ServicesJobService.create_job s t m p cb jid now
        = .error (msg, ServicesJobService.dedup s m t)) ∨
    (∃ s', ServicesJobService.create_job s t m p cb jid now = .ok s' ∧
      s'.jobs = (ServicesJobService.dedup s m t).jobs
        ++ [createdJob t m cb jid now]) := by
  by_cases hv : validTasks.contains t = true
  · rcases henq : Queue.enqueue (ServicesJobService.dedup s m t).queue jid p now
      with ⟨o, q⟩
    cases o with
    | dup =>
        refine .inr (.inr
          ⟨{ jobs := (ServicesJobService.dedup s m t).jobs
                ++ [createdJob t m cb jid now],
             queue := (ServicesJobService.dedup s m t).queue,
             syncs := (ServicesJobService.dedup s m t).syncs
                ++ [{ job_id := jid, sync_status := "pending" }] }, ?_, rfl⟩)
        unfold ServicesJobService.create_job
        rw [if_neg (not_not_intro hv)]
        simp [henq]
    | inserted =>
        obtain rfl := enqueue_inserted_elim henq
        refine .inr (.inr
          ⟨{ jobs := (ServicesJobService.dedup s m t).jobs
                ++ [createdJob t m cb jid now],
             queue := (ServicesJobService.dedup s m t).queue
                ++ [{ job_id := jid, priority := p, enqueued_at := now }],
             syncs := (ServicesJobService.dedup s m t).syncs
                ++ [{ job_id := jid, sync_status := "pending" }] }, ?_, rfl⟩)
        unfold ServicesJobService.create_job
        rw [if_neg (not_not_intro hv)]
        simp [henq]
    | invalidPriority msg =>
        refine .inr (.inl ⟨msg, ?_⟩)
        unfold ServicesJobService.create_job
        rw [if_neg (not_not_intro hv)]
        simp [henq]
  · refine .inl ?_
    unfold ServicesJobService.create_job
    rw [if_pos hv]

/-- C2: a create call for a pair that already has a non-terminal job either
rejects with a conflict error (reject policy, `src/inference`) or deletes
the existing job and creates a fresh pending one (supersede policy,
`src/services/inference`); under both policies create preserves the
at-most-one-non-terminal-job-per-pair invariant (for the supersede policy
also in the state committed when it raises on a bad priority). -/
theorem create_job_duplicate_policies :
    (∀ (s : DBState) (t m : String) (p : Int) (cb : Option String)
       (jid : String) (now : Int),
      validTasks.contains t →
      ¬ (nonTerminalFor s.jobs m t).isEmpty →
      JobService.create_job s t m p cb jid now
        = ([], .error "Job already exists")) ∧
    (∀ (s : DBState) (t m : String) (p : Int) (cb : Option String)
       (jid : String) (now : Int) (tr : List DBState) (s' : DBState),
      NonTerminalInv s →
      JobService.create_job s t m p cb jid now = (tr, .ok s') →
      NonTerminalInv s') ∧
    (∀ (s : DBState) (t m : String) (p : Int) (cb : Option String)
       (jid : String) (now : Int) (j0 : Job) (s' : DBState),
      (s.jobs.map Job.job_id).Nodup →
      (∀ j ∈ s.jobs, j.job_id ≠ jid) →
      (nonTerminalFor s.jobs m t).head? = some j0 →
      ServicesJobService.create_job s t m p cb jid now = .ok s' →
      (∀ j ∈ s'.jobs, j.job_id ≠ j0.job_id) ∧
      ∃ j ∈ s'.jobs, j.job_id = jid ∧ j.status = "pending") ∧
    (∀ (s : DBState) (t m : String) (p : Int) (cb : Option String)
       (jid : String) (now : Int) (s' : DBState),
      NonTerminalInv s → (s.jobs.map Job.job_id).Nodup →
      ServicesJobService.create_job s t m p cb jid now = .ok s' →
      NonTerminalInv s') ∧
    (∀ (s : DBState) (t m : String) (p : Int) (cb : Option String)
       (jid : String) (now : Int) (msg : String) (s0 : DBState),
      NonTerminalInv s → (s.jobs.map Job.job_id).Nodup →
      ServicesJobService.create_job s t m p cb jid now = .error (msg, s0) →
      NonTerminalInv s0) := by
  have hdedupLen : ∀ (s : DBState) (m t : String), NonTerminalInv s →
      ∀ m' t',
        (nonTerminalFor (ServicesJobService.dedup s m t).jobs m' t').length ≤ 1 :=
    fun s m t hinv m' t' =>
      le_trans
        (List.Sublist.length_le
          (nonTerminalFor_sublist (dedup_jobs_sublist s m t) m' t'))
        (hinv m' t')
  have hdedupCleared : ∀ (s : DBState) (m t : String), NonTerminalInv s →
      (s.jobs.map Job.job_id).Nodup →
      nonTerminalFor (ServicesJobService.dedup s m t).jobs m t = [] := by
    intro s m t hinv hnd
    rcases hh : (nonTerminalFor s.jobs m t).head? with _ | j0
    · have hnil : nonTerminalFor s.jobs m t = [] := by
        simpa using hh
      have : ServicesJobService.dedup s m t = s := by
        unfold ServicesJobService.dedup
        rw [hh]
      rw [this]
      exact hnil
    · exact dedup_clears s m t hinv hnd hh
  refine ⟨?_, ?_, ?_, ?_, ?_⟩
  · intro s t m p cb jid now hv hd
    unfold JobService.create_job
    rw [if_neg (not_not_intro hv), if_pos hd]
  · intro s t m p cb jid now tr s' hinv h
    rcases create_job_spec s t m p cb jid now
      with ⟨msg, heq⟩ | ⟨hex, hni, heq⟩ | ⟨hni, heq⟩ <;> rw [heq] at h
    · exact absurd (congrArg Prod.snd h) (by simp)
    · injection h with h1 h2
      injection h2 with h3
      subst h3
      intro m' t'
      exact nonTerminalInv_insert s.jobs t m cb jid now hinv hni m' t'
    · injection h with h1 h2
      injection h2 with h3
      subst h3
      intro m' t'
      exact nonTerminalInv_insert s.jobs t m cb jid now hinv hni m' t'
  · intro s t m p cb jid now j0 s' hnd hfresh hh hok
    rcases services_create_job_spec s t m p cb jid now
      with heq | ⟨msg, heq⟩ | ⟨s'', heq, hjobs⟩
    · rw [heq] at hok
      exact absurd hok (by simp)
    · rw [heq] at hok
      exact absurd hok (by simp)
    · rw [heq] at hok
      injection hok with h1
      subst h1
      rw [hjobs, dedup_jobs_eq s m t hh]
      have hj0 : j0 ∈ s.jobs := (List.mem_filter.mp (mem_of_head?_eq hh)).1
      have hne : jid ≠ j0.job_id := fun h => (hfresh j0 hj0) h.symm
      constructor
      · intro j hj
        rcases List.mem_append.mp hj with h1 | h1
        · exact key_not_mem_eraseP Job.job_id s.jobs j0.job_id hnd j h1
        · rw [List.mem_singleton] at h1
          subst h1
          exact hne
      · exact ⟨createdJob t m cb jid now, by simp, rfl, rfl⟩
  · intro s t m p cb jid now s' hinv hnd hok
    rcases services_create_job_spec s t m p cb jid now
      with heq | ⟨msg, heq⟩ | ⟨s'', heq, hjobs⟩
    · rw [heq] at hok
      exact absurd hok (by simp)
    · rw [heq] at hok
      exact absurd hok (by simp)
    · rw [heq] at hok
      injection hok with h1
      subst h1
      intro m' t'
      rw [hjobs]
      exact nonTerminalInv_insert (ServicesJobService.dedup s m t).jobs t m cb
        jid now (hdedupLen s m t hinv) (hdedupCleared s m t hinv hnd) m' t'
  · intro s t m p cb jid now msg s0 hinv hnd herr
    rcases services_create_job_spec s t m p cb jid now
      with heq | ⟨msg', heq⟩ | ⟨s'', heq, hjobs⟩ <;> rw [heq] at herr
    · injection herr with h1
      injection h1 with h2 h3
      subst h3
      exact hinv
    · injection herr with h1
      injection h1 with h2 h3
      subst h3
      intro m' t'
      exact hdedupLen s m t hinv m' t'
    · exact absurd herr (by simp)

/-- C2 witness: the reject policy refuses a duplicate of pending `j7`; the
reject policy preserves the bound on the empty store; the supersede policy
replaces `j7` by the fresh pending `jn2` and preserves the bound, also in
the state its bad-priority error leaves behind. -/
theorem create_job_duplicate_policies_witness :
    JobService.create_job c7State "image_embedding" "m7" 4 none "jn1" 40
      = ([], .error "Job already exists") ∧
    (nonTerminalFor c6CommitB.jobs "m6" "image_embedding").length ≤ 1 ∧
    ((createdJob "image_embedding" "m7" none "jn2" 50).job_id ≠ c7Job.job_id ∧
      ServicesJobService.create_job c7State "image_embedding" "m7" 5 none "jn2" 50
        = .ok c2After) ∧
    (nonTerminalFor c2After.jobs "m7" "image_embedding").length ≤ 1 ∧
    (nonTerminalFor ({ jobs := [], queue := [], syncs := [] } : DBState).jobs
      "m7" "image_embedding").length ≤ 1 :=
  ⟨create_job_duplicate_policies.1 c7State "image_embedding" "m7" 4 none "jn1" 40
      (by decide) (by decide),
   create_job_duplicate_policies.2.1 c6State "image_embedding" "m6" 5 none "j6"
      100 c6Trace c6CommitB (fun m t => Nat.le_trans (List.length_filter_le _ _)
        (by decide)) rfl "m6" "image_embedding",
   ⟨(create_job_duplicate_policies.2.2.1 c7State "image_embedding" "m7" 5 none
        "jn2" 50 c7Job c2After (by decide) (by decide) (by decide) rfl).1
      (createdJob "image_embedding" "m7" none "jn2" 50) (by decide),
    rfl⟩,
   create_job_duplicate_policies.2.2.2.1 c7State "image_embedding" "m7" 5 none
      "jn2" 50 c2After (fun m t => List.length_filter_le _ _) (by decide) rfl
      "m7" "image_embedding",
   create_job_duplicate_policies.2.2.2.2 c7State "image_embedding" "m7" 11 none
      "jn3" 60 "Priority must be between 0 and 10"
      { jobs := [], queue := [], syncs := [] }
      (fun m t => List.length_filter_le _ _) (by decide) rfl
      "m7" "image_embedding"⟩

/-! Helper lemmas for the dispatch ordering of repeated dequeues. -/

theorem dispatchLe_refl (a : QueueEntry) : DispatchLe a a := by
  unfold DispatchLe
  omega

theorem dispatchLe_trans {a b c : QueueEntry} (h1 : DispatchLe a b)
    (h2 : DispatchLe b c) : DispatchLe a c := by
  unfold DispatchLe at *
  omega

theorem dispatchLe_of_before {a b : QueueEntry} (h : DispatchBefore a b) :
    DispatchLe a b := by
  unfold DispatchBefore at h
  unfold DispatchLe
  omega

theorem dispatchLe_of_not_before {a b : QueueEntry}
    (h : ¬ DispatchBefore a b) : DispatchLe b a := by
  unfold DispatchBefore at h
  unfold DispatchLe
  omega

theorem dispatchBefore_of_le_ne {a b : QueueEntry} (h : DispatchLe a b)
    (hne : ¬ (a.priority = b.priority ∧ a.enqueued_at = b.enqueued_at)) :
    DispatchBefore a b := by
  unfold DispatchLe at h
  unfold DispatchBefore
  omega

/-- The fold of `selectBest` returns an entry served no later than every
candidate. -/
theorem foldl_pickMin_le (es : List QueueEntry) (e : QueueEntry) :
    ∀ x ∈ e :: es, DispatchLe (es.foldl pickMin e) x := by
  induction es generalizing e with
  | nil =>
    intro x hx
    rw [List.mem_singleton] at hx
    subst hx
    exact dispatchLe_refl _
  | cons y ys ih =>
    intro x hx
    rw [List.foldl_cons]
    have hle : DispatchLe (pickMin e y) e ∧ DispatchLe (pickMin e y) y := by
      unfold pickMin
      split
      · exact ⟨dispatchLe_of_before (by assumption), dispatchLe_refl _⟩
      · exact ⟨dispatchLe_refl _, dispatchLe_of_not_before (by assumption)⟩
    have hmin := ih (pickMin e y)
    have hminHead : DispatchLe (ys.foldl pickMin (pickMin e y)) (pickMin e y) :=
      hmin _ (List.mem_cons_self _ _)
    rcases List.mem_cons.mp hx with rfl | hx2
    · exact dispatchLe_trans hminHead hle.1
    · rcases List.mem_cons.mp hx2 with rfl | hx3
      · exact dispatchLe_trans hminHead hle.2
      · exact hmin _ (List.mem_cons_of_mem _ hx3)

/-- Removing (by key) an element of a key-distinct list is a permutation
with the element put in front. -/
theorem perm_cons_filter_key {α : Type} (key : α → String) {l : List α}
    {x : α} (hnd : (l.map key).Nodup) (hx : x ∈ l) :
    l.Perm (x :: l.filter (fun y => !(key y == key x))) := by
  induction l with
  | nil => cases hx
  | cons a tl ih =>
    rw [List.map_cons, List.nodup_cons] at hnd
    rcases List.mem_cons.mp hx with rfl | hmem
    · have hall : tl.filter (fun y => !(key y == key x)) = tl := by
        rw [List.filter_eq_self]
        intro y hy
        have hne : key y ≠ key x := fun h =>
          hnd.1 (h ▸ List.mem_map_of_mem key hy)
        simp [hne]
      rw [List.filter_cons,
        if_neg (by simp : ¬ ((!(key x == key x)) = true)), hall]
    · have hka : key a ≠ key x := fun h =>
        hnd.1 (h ▸ List.mem_map_of_mem key hmem)
      rw [List.filter_cons,
        if_pos (by simp [hka] : ((!(key a == key x)) = true))]
      exact ((ih hnd.2 hmem).cons a).trans (List.Perm.swap x a _)

/-- Marking every entry of one job id shrinks the unclaimed sublist by
exactly the entries of that id. -/
theorem pending_after_mark (es : List QueueEntry) (jid w : String)
    (now : Int) :
    ((es.map (fun x => if x.job_id == jid then
        { x with dequeued_at := some now, worker_id := some w } else x)).filter
          isPending)
      = (es.filter isPending).filter (fun e => !(e.job_id == jid)) := by
  induction es with
  | nil => rfl
  | cons a tl ih =>
    rw [List.map_cons]
    by_cases ha : (a.job_id == jid) = true
    · rw [if_pos ha]
      have hmp :
          isPending ({ a with dequeued_at := some now, worker_id := some w } : QueueEntry) = false :=
        rfl
      rw [List.filter_cons, hmp, if_neg (by simp : ¬ (false = true))]
      by_cases hp : isPending a = true
      · rw [List.filter_cons, if_pos hp, List.filter_cons,
          if_neg (by simp [ha] : ¬ ((!(a.job_id == jid)) = true))]
        exact ih
      · rw [List.filter_cons, if_neg hp]
        exact ih
    · rw [if_neg ha]
      have ha' : (a.job_id == jid) = false := by
        simpa using ha
      by_cases hp : isPending a = true
      · rw [List.filter_cons, if_pos hp, List.filter_cons, if_pos hp,
          List.filter_cons, if_pos (by simp [ha'] : ((!(a.job_id == jid)) = true))]
        rw [ih]
      · rw [List.filter_cons, if_neg hp, List.filter_cons, if_neg hp]
        exact ih

/-- Marking preserves the job-id column. -/
theorem map_job_id_mark (es : List QueueEntry) (jid w : String) (now : Int) :
    ((es.map (fun x => if x.job_id == jid then
        { x with dequeued_at := some now, worker_id := some w } else x)).map
          QueueEntry.job_id)
      = es.map QueueEntry.job_id := by
  induction es with
  | nil => rfl
  | cons a tl ih =>
    rw [List.map_cons, List.map_cons, List.map_cons]
    rw [ih]
    congr 1
    split <;> rfl

/-- Selection correctness of repeated dequeues: with distinct ids and
pairwise-distinct `(priority, enqueued_at)` keys among the unclaimed
entries, the collected ids are exactly the unclaimed entries in strictly
descending dispatch order. -/
theorem dequeueAllGo_sorted (w : String) (now : Int) :
    ∀ (n : Nat) (es : List QueueEntry),
      (es.map QueueEntry.job_id).Nodup →
      ((es.filter isPending).Pairwise
        (fun a b => ¬ (a.priority = b.priority ∧ a.enqueued_at = b.enqueued_at))) →
      (es.filter isPending).length ≤ n →
      ∃ l : List QueueEntry,
        dequeueAllGo w now n es = l.map QueueEntry.job_id ∧
        (es.filter isPending).Perm l ∧
        l.Pairwise DispatchBefore := by
  intro n
  induction n with
  | zero =>
    intro es hnd hpair hlen
    have hnil : es.filter isPending = [] :=
      List.length_eq_zero.mp (Nat.le_zero.mp hlen)
    exact ⟨[], rfl, by simp [hnil], List.Pairwise.nil⟩
  | succ n ih =>
    intro es hnd hpair hlen
    rcases hfil : es.filter isPending with _ | ⟨e0, rest⟩
    · refine ⟨[], ?_, by simp [hfil], List.Pairwise.nil⟩
      simp [dequeueAllGo, Queue.dequeue, hfil, selectBest]
    · set b := rest.foldl pickMin e0 with hb
      have hbsel : selectBest (es.filter isPending) = some b := by
        rw [hfil]
        simp only [selectBest]
      have hbmem : b ∈ es.filter isPending := by
        rw [hfil, hb]
        exact foldl_pickMin_mem rest e0
      have hbmin : ∀ x ∈ es.filter isPending, DispatchLe b x := by
        rw [hfil, hb]
        exact foldl_pickMin_le rest e0
      have hstep : dequeueAllGo w now (Nat.succ n) es
          = b.job_id :: dequeueAllGo w now n (es.map (fun x =>
              if x.job_id == b.job_id then
                { x with dequeued_at := some now, worker_id := some w }
              else x)) := by
        simp only [dequeueAllGo, Queue.dequeue, hbsel]
      set es' := es.map (fun x =>
        if x.job_id == b.job_id then
          { x with dequeued_at := some now, worker_id := some w } else x)
        with hes'
      have hnd' : (es'.map QueueEntry.job_id).Nodup := by
        rw [hes', map_job_id_mark]
        exact hnd
      have hpend' : es'.filter isPending
          = (es.filter isPending).filter (fun e => !(e.job_id == b.job_id)) := by
        rw [hes']
        exact pending_after_mark es b.job_id w now
      have hndPend : ((es.filter isPending).map QueueEntry.job_id).Nodup :=
        List.Nodup.sublist ((List.filter_sublist es).map QueueEntry.job_id) hnd
      have hperm0 : (es.filter isPending).Perm (b :: es'.filter isPending) := by
        rw [hpend']
        exact perm_cons_filter_key QueueEntry.job_id hndPend hbmem
      have hlen' : (es'.filter isPending).length ≤ n := by
        have hleq := hperm0.length_eq
        rw [List.length_cons] at hleq
        omega
      have hpair' : (es'.filter isPending).Pairwise
          (fun a b => ¬ (a.priority = b.priority ∧ a.enqueued_at = b.enqueued_at)) := by
        rw [hpend']
        exact List.Pairwise.sublist (List.filter_sublist _) hpair
      obtain ⟨l', hmap, hperm, hsort⟩ := ih es' hnd' hpair' hlen'
      refine ⟨b :: l', ?_, ?_, ?_⟩
      · rw [hstep, hmap, List.map_cons]
      · rw [← hfil]
        exact hperm0.trans (hperm.cons b)
      · rw [List.pairwise_cons]
        refine ⟨?_, hsort⟩
        intro x hxl
        have hx' : x ∈ es'.filter isPending := hperm.mem_iff.mpr hxl
        rw [hpend'] at hx'
        have hxfil : x ∈ es.filter isPending := List.mem_of_mem_filter hx'
        have hxkey : x.job_id ≠ b.job_id := by
          have := (List.mem_filter.mp hx').2
          simpa using this
        have hbx : b ≠ x := fun h => hxkey (h ▸ rfl)
        have hsymm : Symmetric
            (fun a b : QueueEntry =>
              ¬ (a.priority = b.priority ∧ a.enqueued_at = b.enqueued_at)) :=
          fun _ _ h hc => h ⟨hc.1.symm, hc.2.symm⟩
        have hne := List.Pairwise.forall hsymm hpair hbmem hxfil hbx
        exact dispatchBefore_of_le_ne (hbmin x hxfil) hne

/-- C1: for every batch of already-enqueued (unclaimed) entries with
distinct job ids and effectively-unique `(priority, enqueued_at)` keys,
repeated `dequeue` calls return exactly those entries ordered strictly by
priority descending and, within a priority, by enqueue timestamp ascending;
in particular A(priority=3,t=1), B(priority=7,t=2), C(priority=7,t=3)
dequeue as B, C, A. -/
theorem dequeue_priority_fifo :
    (∀ (es : List QueueEntry) (w : String) (now : Int),
      (∀ e ∈ es, e.dequeued_at = none) →
      (es.map QueueEntry.job_id).Nodup →
      es.Pairwise
        (fun a b => ¬ (a.priority = b.priority ∧ a.enqueued_at = b.enqueued_at)) →
      ∃ l : List QueueEntry,
        dequeueAll es w now = l.map QueueEntry.job_id ∧
        es.Perm l ∧ l.Pairwise DispatchBefore) ∧
    dequeueAll exampleQueue "w1" 10 = ["B", "C", "A"] := by
  constructor
  · intro es w now hall hnd hpair
    have hfil : es.filter isPending = es := by
      rw [List.filter_eq_self]
      intro e he
      simp [isPending, hall e he]
    obtain ⟨l, h1, h2, h3⟩ := dequeueAllGo_sorted w now es.length es hnd
      (by rw [hfil]; exact hpair) (by simp [hfil])
    rw [hfil] at h2
    exact ⟨l, h1, h2, h3⟩
  · decide

/-- C1 witness: the spec scenario run through the general theorem. -/
theorem dequeue_priority_fifo_witness :
    ∃ l : List QueueEntry,
      dequeueAll exampleQueue "w9" 20 = l.map QueueEntry.job_id ∧
      exampleQueue.Perm l ∧ l.Pairwise DispatchBefore :=
  dequeue_priority_fifo.1 exampleQueue "w9" 20 (by decide) (by decide)
    (by decide)

end CLServer
